import Mathlib

/-!
Verification of the Tool Invocation Engine of this repository.

The definitions below are a shallow embedding of the Python sources:
  * `backend/tools/base.py`        — `ToolStatus`, `ToolResult`, `Tool`
    (`safe_execute`, `validate_params`, stats counters) and `ToolRegistry`
    (`register`, `unregister`, `get_tool`, `list_tools`, `execute_tool`,
    `reset_stats`);
  * `backend/tools/math_tools.py`  — `CalculatorTool` (`get_schema`, the
    dispatch skeleton of `execute`);
  * `backend/simple_tool_emulator.py`   — `SimpleToolEmulator.detect_tool_intent`;
  * `backend/production_tool_proxy.py`  — `ToolCallProxy.process_request` and
    `ToolCallProxy._fallback_pattern_detection`.

Python dictionaries are modelled as insertion-ordered association lists,
Python values as the inductive `PyVal`, and the effects of `async` execution
(`asyncio.wait_for` around a tool's `execute`) as an explicit outcome type
`ExecOutcome`.  Mutation of a tool's counters is modelled by returning the
updated `Tool` value.
-/

namespace GptOss

/-- Model of a Python value as it flows through the tool layer (parameter
maps, schemas, results).  `float` carries a rational: no claim below depends
on IEEE rounding, the constructor only records which Python type a value has
and (for schemas) its content. -/
inductive PyVal where
  | none
  | bool (b : Bool)
  | int (n : Int)
  | float (q : Rat)
  | str (s : String)
  | list (xs : List PyVal)
  | dict (kvs : List (String × PyVal))

/-- A `**kwargs` parameter map: insertion-ordered, string keys. -/
abbrev Params := List (String × PyVal)

/-- Python truthiness (`if x:`) for the values modelled by `PyVal`. -/
def pyTruthy : PyVal → Bool
  | PyVal.none => false
  | PyVal.bool b => b
  | PyVal.int n => n != 0
  | PyVal.float q => q != 0
  | PyVal.str s => !s.isEmpty
  | PyVal.list xs => !xs.isEmpty
  | PyVal.dict kvs => !kvs.isEmpty

/-- `d.get(k, default)`.  In the source the receiver is always one of the
nested dict literals produced by a tool's `get_schema`, so the non-dict case
(where Python would raise `AttributeError`) is given the default. -/
def pyGet : PyVal → String → PyVal → PyVal
  | PyVal.dict kvs, k, d =>
    match kvs.find? (fun kv => kv.1 == k) with
    | some kv => kv.2
    | Option.none => d
  | _, _, d => d

/-- `d.get(k)` (or `d[k]` guarded by `k in d`): `none` when absent. -/
def pyGetOpt : PyVal → String → Option PyVal
  | PyVal.dict kvs, k => (kvs.find? (fun kv => kv.1 == k)).map (fun kv => kv.2)
  | _, _ => Option.none

/-- The elements of a Python list value (the `required` list of a schema). -/
def pyListElems : PyVal → List PyVal
  | PyVal.list xs => xs
  | _ => []

/-- Python `v == s` where `s` is a `str`: only another equal `str` compares
equal (no other modelled type is `==` to a string in Python). -/
def pyEqStr : PyVal → String → Bool
  | PyVal.str a, b => a == b
  | _, _ => false

/-- `f"{v}"` / `str(v)`, needed only to build validation messages; in every
schema of the repository the formatted value is already a string. -/
def pyFormatVal : PyVal → String
  | PyVal.str s => s
  | PyVal.int n => toString n
  | PyVal.bool b => if b then "True" else "False"
  | PyVal.float q => toString q
  | PyVal.none => "None"
  | PyVal.list _ => "[...]"
  | PyVal.dict _ => "\x7b...\x7d"

/-- `ToolStatus` from `backend/tools/base.py` (the `PARTIAL` member is named
`part` here). -/
inductive ToolStatus where
  | success
  | error
  | part
  | timeout
  deriving DecidableEq

/-- `ToolResult` from `backend/tools/base.py`. -/
structure ToolResult where
  status : ToolStatus
  data : Option PyVal
  error : Option String
  metadata : Option PyVal

/-- Outcome of `await asyncio.wait_for(self.execute(**kwargs), timeout=self.timeout)`:
the coroutine returned a `ToolResult` in time, raised an exception whose
`str` is `msg`, or exceeded the timeout (`asyncio.TimeoutError`). -/
inductive ExecOutcome where
  | ok (r : ToolResult)
  | raises (msg : String)
  | timesOut

/-- `Tool` from `backend/tools/base.py`: the constructor arguments, the
stats counters initialised by `__init__`, and the two abstract methods —
`get_schema` becomes the stored `schema` value (every implementation returns
a fixed literal) and `execute` becomes the outcome function `execute`. -/
structure Tool where
  name : String
  description : String
  timeout : Rat
  usage_count : Nat
  success_count : Nat
  error_count : Nat
  last_used : Option Nat
  schema : PyVal
  execute : Params → ExecOutcome

/-- `Tool.__init__`: counters start at zero, `_last_used` at `None`. -/
def Tool.init (name description : String) (timeout : Rat) (schema : PyVal)
    (execute : Params → ExecOutcome) : Tool :=
  { name := name, description := description, timeout := timeout,
    usage_count := 0, success_count := 0, error_count := 0,
    last_used := Option.none, schema := schema, execute := execute }

/-- `Tool.safe_execute`: bump `_usage_count` and `_last_used`, run `execute`
under the timeout, then update the success/error counters according to the
outcome.  `now` stands for `datetime.now()`. -/
def Tool.safe_execute (t : Tool) (params : Params) (now : Nat) : ToolResult × Tool :=
  let t1 : Tool := { t with usage_count := t.usage_count + 1, last_used := some now }
  match t.execute params with
  | ExecOutcome.ok result =>
    if result.status = ToolStatus.success then
      (result, { t1 with success_count := t1.success_count + 1 })
    else
      (result, { t1 with error_count := t1.error_count + 1 })
  | ExecOutcome.timesOut =>
    ({ status := ToolStatus.timeout, data := Option.none,
       error := some ("Tool execution timed out after " ++ toString t.timeout ++ " seconds"),
       metadata := Option.none },
     { t1 with error_count := t1.error_count + 1 })
  | ExecOutcome.raises msg =>
    ({ status := ToolStatus.error, data := Option.none, error := some msg,
       metadata := Option.none },
     { t1 with error_count := t1.error_count + 1 })

/-- `isinstance(v, str)`. -/
def isStringInst : PyVal → Bool
  | PyVal.str _ => true
  | _ => false

/-- `isinstance(v, (int, float))`; note that Python `bool` is a subclass of
`int`, so a boolean passes the number check. -/
def isNumberInst : PyVal → Bool
  | PyVal.int _ => true
  | PyVal.float _ => true
  | PyVal.bool _ => true
  | _ => false

/-- `isinstance(v, bool)`. -/
def isBoolInst : PyVal → Bool
  | PyVal.bool _ => true
  | _ => false

/-- `isinstance(v, list)`. -/
def isArrayInst : PyVal → Bool
  | PyVal.list _ => true
  | _ => false

/-- `isinstance(v, dict)`. -/
def isObjectInst : PyVal → Bool
  | PyVal.dict _ => true
  | _ => false

/-- The `for req in required` loop of `Tool.validate_params`: Python's
`req not in params` is an equality test of `req` against the map's keys. -/
def checkRequired : List PyVal → Params → Option String
  | [], _ => Option.none
  | req :: rest, params =>
    if params.any (fun kv => pyEqStr req kv.1) then checkRequired rest params
    else some ("Missing required parameter: " ++ pyFormatVal req)

/-- The `for key, value in params.items()` loop of `Tool.validate_params`. -/
def checkTypes (properties : PyVal) : Params → Option String
  | [] => Option.none
  | (key, value) :: rest =>
    match pyGetOpt properties key with
    | Option.none => checkTypes properties rest
    | some prop =>
      if pyEqStr (pyGet prop "type" PyVal.none) "string" && !isStringInst value then
        some ("Parameter " ++ key ++ " must be a string")
      else if pyEqStr (pyGet prop "type" PyVal.none) "number" && !isNumberInst value then
        some ("Parameter " ++ key ++ " must be a number")
      else if pyEqStr (pyGet prop "type" PyVal.none) "boolean" && !isBoolInst value then
        some ("Parameter " ++ key ++ " must be a boolean")
      else if pyEqStr (pyGet prop "type" PyVal.none) "array" && !isArrayInst value then
        some ("Parameter " ++ key ++ " must be an array")
      else if pyEqStr (pyGet prop "type" PyVal.none) "object" && !isObjectInst value then
        some ("Parameter " ++ key ++ " must be an object")
      else checkTypes properties rest

/-- `Tool.validate_params`: required parameters present, then basic type
checks for the parameters that appear in `properties`.  `prop.get("type")`
compared with a string literal is `pyEqStr (pyGet prop "type" PyVal.none)`. -/
def Tool.validate_params (t : Tool) (params : Params) : Option String :=
  let required := pyListElems (pyGet (pyGet (pyGet t.schema "function" (PyVal.dict []))
    "parameters" (PyVal.dict [])) "required" (PyVal.list []))
  let properties := pyGet (pyGet (pyGet t.schema "function" (PyVal.dict []))
    "parameters" (PyVal.dict [])) "properties" (PyVal.dict [])
  match checkRequired required params with
  | some msg => some msg
  | Option.none => checkTypes properties params

/-! ### Association-list model of Python dicts (insertion-ordered) -/

/-- `m[k] = v`: replace in place when the key exists (a Python dict keeps the
original position of an updated key — and never holds a key twice, so
replacing the first occurrence is the same as replacing the occurrence),
otherwise append. -/
def dictSet {α : Type} : List (String × α) → String → α → List (String × α)
  | [], k, v => [(k, v)]
  | p :: rest, k, v => if p.1 == k then (k, v) :: rest else p :: dictSet rest k v

/-- `m.get(k)` / `k in m` combined: the value when present. -/
def dictFind {α : Type} (m : List (String × α)) (k : String) : Option α :=
  (m.find? (fun p => p.1 == k)).map (fun p => p.2)

/-- `del m[k]`. -/
def dictDel {α : Type} (m : List (String × α)) (k : String) : List (String × α) :=
  m.filter (fun p => p.1 != k)

/-- `list(m.keys())`. -/
def dictKeys {α : Type} (m : List (String × α)) : List String :=
  m.map (fun p => p.1)

/-- Python `list.remove(x)`: drop the first occurrence. -/
def removeFirst : List String → String → List String
  | [], _ => []
  | x :: xs, n => if x == n then xs else x :: removeFirst xs n

/-! ### `ToolRegistry` from `backend/tools/base.py` -/

/-- `ToolRegistry`: the `_tools` catalog and the `_categories` index. -/
structure ToolRegistry where
  tools : List (String × Tool)
  categories : List (String × List String)

/-- `ToolRegistry.__init__`. -/
def ToolRegistry.init : ToolRegistry :=
  { tools := [], categories := [] }

/-- `ToolRegistry.register`: insert by name (overwriting with a warning log
when already present), then add the name to the category list unless it is
already there (creating the category with `[]` first when absent). -/
def ToolRegistry.register (reg : ToolRegistry) (tool : Tool) (category : String) : ToolRegistry :=
  let tools := dictSet reg.tools tool.name tool
  let categories :=
    match dictFind reg.categories category with
    | Option.none => dictSet reg.categories category [tool.name]
    | some names =>
      if names.contains tool.name then reg.categories
      else dictSet reg.categories category (names ++ [tool.name])
  { tools := tools, categories := categories }

/-- `ToolRegistry.unregister`: delete the entry and remove the name from
every category list; the returned flag says whether the name existed. -/
def ToolRegistry.unregister (reg : ToolRegistry) (name : String) : Bool × ToolRegistry :=
  if (dictFind reg.tools name).isSome then
    (true,
     { tools := dictDel reg.tools name,
       categories := reg.categories.map (fun c =>
         if c.2.contains name then (c.1, removeFirst c.2 name) else c) })
  else (false, reg)

/-- `ToolRegistry.get_tool`. -/
def ToolRegistry.get_tool (reg : ToolRegistry) (name : String) : Option Tool :=
  dictFind reg.tools name

/-- `ToolRegistry.list_tools`; `if category:` is a truthiness test, so an
empty-string category also lists every tool. -/
def ToolRegistry.list_tools (reg : ToolRegistry) (category : Option String) : List String :=
  match category with
  | some c =>
    if c.isEmpty then dictKeys reg.tools
    else (dictFind reg.categories c).getD []
  | Option.none => dictKeys reg.tools

/-- Result of one `ToolRegistry.execute_tool` dispatch: the returned
`ToolResult`, the registry afterwards (the dispatched tool's counters were
mutated in place in the source), and whether the tool's `execute` coroutine
was started — the instrumentation the spec calls a "side-effect counter". -/
structure DispatchOut where
  result : ToolResult
  reg : ToolRegistry
  invoked : Bool

/-- `ToolRegistry.execute_tool`: lookup (`Error` when absent, stats
untouched), then `validate_params` (`if validation_error:` — a Python
truthiness test, so a hypothetical empty-string message would fall through;
`validate_params_isEmpty_false` below shows no message is empty), then
`safe_execute`. -/
def ToolRegistry.execute_tool (reg : ToolRegistry) (name : String) (params : Params)
    (now : Nat) : DispatchOut :=
  match reg.get_tool name with
  | Option.none =>
    { result := { status := ToolStatus.error, data := Option.none,
                  error := some ("Tool '" ++ name ++ "' not found"),
                  metadata := Option.none },
      reg := reg, invoked := false }
  | some tool =>
    match tool.validate_params params with
    | some msg =>
      if msg.isEmpty then
        let out := tool.safe_execute params now
        { result := out.1, reg := { reg with tools := dictSet reg.tools name out.2 },
          invoked := true }
      else
        { result := { status := ToolStatus.error, data := Option.none,
                      error := some msg, metadata := Option.none },
          reg := reg, invoked := false }
    | Option.none =>
      let out := tool.safe_execute params now
      { result := out.1, reg := { reg with tools := dictSet reg.tools name out.2 },
        invoked := true }

/-- `ToolRegistry.reset_stats`: zero every tool's counters and clear
`_last_used`. -/
def ToolRegistry.reset_stats (reg : ToolRegistry) : ToolRegistry :=
  { reg with tools := reg.tools.map (fun p =>
      (p.1, { p.2 with
                usage_count := 0
                success_count := 0
                error_count := 0
                last_used := Option.none })) }

/-! ### Registry operation sequences (for the invariants C9 and C10) -/

/-- One externally triggered registry operation. -/
inductive RegOp where
  | registerOp (t : Tool) (category : String)
  | unregisterOp (name : String)
  | executeOp (name : String) (params : Params) (now : Nat)
  | resetOp

/-- Apply one operation to the registry. -/
def RegOp.app (op : RegOp) (reg : ToolRegistry) : ToolRegistry :=
  match op with
  | RegOp.registerOp t c => reg.register t c
  | RegOp.unregisterOp n => (reg.unregister n).2
  | RegOp.executeOp n p now => (reg.execute_tool n p now).reg
  | RegOp.resetOp => reg.reset_stats

/-- Run a sequence of operations. -/
def runOps (reg : ToolRegistry) : List RegOp → ToolRegistry
  | [] => reg
  | op :: rest => runOps (op.app reg) rest

/-- The per-tool counter invariant of the spec:
`successCount + errorCount ≤ invocationCount` for every catalogued tool. -/
def statsInv (reg : ToolRegistry) : Bool :=
  reg.tools.all (fun p => Nat.ble (p.2.success_count + p.2.error_count) p.2.usage_count)

/-- A `registerOp` is well-formed when the tool object it installs already
satisfies the counter invariant — `Tool.init` always does (all zeroes). -/
def RegOp.wf : RegOp → Bool
  | RegOp.registerOp t _ => Nat.ble (t.success_count + t.error_count) t.usage_count
  | _ => true

/-- The category-index invariant (C10): every name in any category list is a
key of the tool catalog. -/
def catInv (reg : ToolRegistry) : Bool :=
  reg.categories.all (fun c => c.2.all (fun n => (dictFind reg.tools n).isSome))

/-! ### `CalculatorTool` from `backend/tools/math_tools.py` -/

/-- The literal returned by `CalculatorTool.get_schema`.  Note the empty
`required` list: neither `expression` nor `operation`/`values` is declared
required. -/
def calculator_schema : PyVal :=
  PyVal.dict [
    ("type", PyVal.str "function"),
    ("function", PyVal.dict [
      ("name", PyVal.str "calculator"),
      ("description", PyVal.str "Perform mathematical calculations"),
      ("parameters", PyVal.dict [
        ("type", PyVal.str "object"),
        ("properties", PyVal.dict [
          ("expression", PyVal.dict [
            ("type", PyVal.str "string"),
            ("description", PyVal.str "Mathematical expression to evaluate (e.g., \x272 + 2 * 3\x27)")]),
          ("operation", PyVal.dict [
            ("type", PyVal.str "string"),
            ("description", PyVal.str "Mathematical operation"),
            ("enum", PyVal.list [PyVal.str "add", PyVal.str "subtract", PyVal.str "multiply",
              PyVal.str "divide", PyVal.str "power", PyVal.str "sqrt", PyVal.str "log"])]),
          ("values", PyVal.dict [
            ("type", PyVal.str "array"),
            ("items", PyVal.dict [("type", PyVal.str "number")]),
            ("description", PyVal.str "Values to perform operation on")])]),
        ("required", PyVal.list [])])])]

/-- `CalculatorTool.execute`.  The dispatch skeleton (which argument
combination selects which arm, and the final `Error` for neither) is taken
from the source; the two arithmetic arms are abstracted as parameters
because their bodies run Python `eval` (arbitrary expressions under
`math.__dict__`) and float arithmetic: `ev` maps the `expression` value to
`eval`'s result or the message of the exception the arm's `try` converts to
an `Error` result, and `opEval` stands for the whole
`operation`/`values` arm.  No claim in this development depends on either
arm's value.  A keyword argument outside the signature makes the call
itself raise `TypeError`, caught by `safe_execute`. -/
def calculator_execute (ev : PyVal → Except String PyVal)
    (opEval : PyVal → PyVal → ToolResult) (params : Params) : ExecOutcome :=
  if params.any (fun kv => kv.1 != "expression" && kv.1 != "operation" && kv.1 != "values") then
    ExecOutcome.raises "execute() got an unexpected keyword argument"
  else
    let expression := (dictFind params "expression").getD PyVal.none
    let operation := (dictFind params "operation").getD PyVal.none
    let values := (dictFind params "values").getD PyVal.none
    if pyTruthy expression then
      match ev expression with
      | Except.ok result =>
        ExecOutcome.ok
          { status := ToolStatus.success,
            data := some (PyVal.dict [("expression", expression), ("result", result)]),
            error := Option.none, metadata := Option.none }
      | Except.error e =>
        ExecOutcome.ok
          { status := ToolStatus.error, data := Option.none, error := some e,
            metadata := Option.none }
    else if pyTruthy operation && pyTruthy values then
      ExecOutcome.ok (opEval operation values)
    else
      ExecOutcome.ok
        { status := ToolStatus.error, data := Option.none,
          error := some "Provide either \x27expression\x27 or both \x27operation\x27 and \x27values\x27",
          metadata := Option.none }

/-- `CalculatorTool.__init__` + its two abstract methods (parameterised by
the abstracted arithmetic arms, see `calculator_execute`). -/
def CalculatorTool (ev : PyVal → Except String PyVal)
    (opEval : PyVal → PyVal → ToolResult) : Tool :=
  Tool.init "calculator" "Perform mathematical calculations" 5 calculator_schema
    (calculator_execute ev opEval)

/-! ### Deterministic pattern matching
(`SimpleToolEmulator.detect_tool_intent` in `backend/simple_tool_emulator.py`
and `ToolCallProxy._fallback_pattern_detection` in
`backend/production_tool_proxy.py`)

The calc regexes have the shape `(\d+)\s*C\s*(\d+)` for a one-character
class `C`.  Since no class contains a digit or a whitespace character, the
greedy `\d+`/`\s*` runs admit no productive backtracking, so `re.search` is
exactly: the leftmost start position from which "digit run, whitespace run,
one class character, whitespace run, digit run" parses. -/

/-- `\d` (the inputs routed here are ASCII digits). -/
def isDigitA (c : Char) : Bool := c.isDigit

/-- `\s` (ASCII fragment of Python's whitespace class). -/
def isSpaceA (c : Char) : Bool :=
  c == ' ' || c == '\t' || c == '\n' || c == '\x0b' || c == '\x0c' || c == '\r'

/-- Try `(\d+)\s*C\s*(\d+)` anchored at the head of the text. -/
def matchNumSepNum (sep : Char → Bool) (s : List Char) : Option (String × String) :=
  let d1 := s.takeWhile isDigitA
  if d1.isEmpty then Option.none
  else
    match (s.dropWhile isDigitA).dropWhile isSpaceA with
    | [] => Option.none
    | c :: rest =>
      if sep c then
        let d2 := (rest.dropWhile isSpaceA).takeWhile isDigitA
        if d2.isEmpty then Option.none else some (String.mk d1, String.mk d2)
      else Option.none

/-- `re.search` for `(\d+)\s*C\s*(\d+)`: leftmost match, returning the two
captured digit groups. -/
def reSearchNumSepNum (sep : Char → Bool) : List Char → Option (String × String)
  | [] => Option.none
  | c :: rest =>
    match matchNumSepNum sep (c :: rest) with
    | some r => some r
    | Option.none => reSearchNumSepNum sep rest

/-- The class `[×*곱하기]` of the first calc pattern: one character out of
the five — the three syllables of 곱하기 are alternatives, not the word. -/
def sepPat1 (c : Char) : Bool :=
  c == '×' || c == '*' || c == '곱' || c == '하' || c == '기'

/-- The class `[×*]` of the second emulator pattern. -/
def sepMul (c : Char) : Bool := c == '×' || c == '*'

/-- `needle` is a prefix of `hay`. -/
def listStartsWith : List Char → List Char → Bool
  | _, [] => true
  | [], _ :: _ => false
  | a :: as, b :: bs => a == b && listStartsWith as bs

/-- Python `needle in hay` on strings: contiguous-substring test. -/
def containsSub : List Char → List Char → Bool
  | [], needle => needle.isEmpty
  | hay@(_ :: t), needle => listStartsWith hay needle || containsSub t needle

/-- `needle in hay` at `String` level. -/
def strContains (hay needle : String) : Bool := containsSub hay.data needle.data

/-- `str.lower()`; `Char.toLower` agrees with Python on the ASCII letters
that appear in the routed texts (Hangul, digits and `×` are unchanged by
both). -/
def pyLower (s : String) : String := String.mk (s.data.map Char.toLower)

/-- `re.search` for the second emulator pattern
`계산[해줘]*.*?(\d+)\s*[×*]\s*(\d+)`: a match starts at an occurrence of
`계산`; `[해줘]*` and the lazy `.*?` absorb everything up to the earliest
following `digit [×*] digit` group (no routed text contains a newline, so
`.` is unrestricted here). -/
def reSearchGyesan : List Char → Option (String × String)
  | [] => Option.none
  | c :: rest =>
    if listStartsWith (c :: rest) ['계', '산'] then
      match reSearchNumSepNum sepMul (rest.drop 1) with
      | some r => some r
      | Option.none => reSearchGyesan rest
    else reSearchGyesan rest

/-- The shared `expr = f"{g1} <op> {g2}"` selection: the operator is chosen
by substring tests on the whole lowered text, defaulting to `*`. -/
def chooseExpr (text : String) (g : String × String) : String :=
  if strContains text "곱하기" || strContains text "×" || strContains text "*" then
    g.1 ++ " * " ++ g.2
  else if strContains text "+" then g.1 ++ " + " ++ g.2
  else if strContains text "-" then g.1 ++ " - " ++ g.2
  else if strContains text "/" then g.1 ++ " / " ++ g.2
  else g.1 ++ " * " ++ g.2

/-- `SimpleToolEmulator.detect_tool_intent`: the five calc patterns in
order, then the weather words (which route to `system_info`; the computed
`location` is discarded by the source), then the system words. -/
def SimpleToolEmulator.detect_tool_intent (user_message : String) : Option String × Params :=
  let text := pyLower user_message
  let tl := text.data
  let calcMatch :=
    match reSearchNumSepNum sepPat1 tl with
    | some r => some r
    | Option.none =>
      match reSearchGyesan tl with
      | some r => some r
      | Option.none =>
        match reSearchNumSepNum (fun c => c == '+') tl with
        | some r => some r
        | Option.none =>
          match reSearchNumSepNum (fun c => c == '-') tl with
          | some r => some r
          | Option.none => reSearchNumSepNum (fun c => c == '/') tl
  match calcMatch with
  | some g => (some "calculator", [("expression", PyVal.str (chooseExpr text g))])
  | Option.none =>
    if ["날씨", "기온", "weather", "temperature"].any (fun w => strContains text w) then
      (some "system_info", [("info_type", PyVal.str "all")])
    else if ["시스템", "cpu", "메모리", "memory"].any (fun w => strContains text w) then
      (some "system_info", [("info_type", PyVal.str "all")])
    else (Option.none, [])

/-- `ToolCallProxy._fallback_pattern_detection`: the four calc patterns (the
`계산` pattern is absent here) guarded by `calculator` availability, then
the system words guarded by `system_info` availability.
`available_tools` is `[tool["function"]["name"] for tool in tools]`. -/
def ToolCallProxy.fallback_pattern_detection (user_message : String)
    (available_tools : List String) : Bool × String × Params :=
  let text := pyLower user_message
  let tl := text.data
  let calcMatch :=
    match reSearchNumSepNum sepPat1 tl with
    | some r => some r
    | Option.none =>
      match reSearchNumSepNum (fun c => c == '+') tl with
      | some r => some r
      | Option.none =>
        match reSearchNumSepNum (fun c => c == '-') tl with
        | some r => some r
        | Option.none => reSearchNumSepNum (fun c => c == '/') tl
  let sysFallback : Bool × String × Params :=
    if available_tools.contains "system_info" &&
        (["시스템", "cpu", "메모리", "memory"].any (fun w => strContains text w)) then
      (true, "system_info", [("info_type", PyVal.str "all")])
    else (false, "", [])
  if available_tools.contains "calculator" then
    match calcMatch with
    | some g => (true, "calculator", [("expression", PyVal.str (chooseExpr text g))])
    | Option.none => sysFallback
  else sysFallback

/-! ### `ToolCallProxy.process_request` from `backend/production_tool_proxy.py` -/

/-- What one strategy attempt (`await strategy_func(request)`) produced:
`(True, result)`, `(False, result)`, or an exception the loop's
`except Exception` swallows. -/
inductive StratOutcome where
  | ok (result : PyVal)
  | failed (result : PyVal)
  | raised (msg : String)

/-- `StratOutcome.ok`? -/
def StratOutcome.isOk : StratOutcome → Bool
  | StratOutcome.ok _ => true
  | _ => false

/-- `ToolCallProxy.__init__`'s `self.stats` counters (the static part). -/
structure ProxyStats where
  total_requests : Nat
  priority_1_success : Nat
  priority_2_success : Nat
  priority_3_success : Nat
  priority_4_success : Nat

/-- `ToolCallProxy._update_stats` keyed by the position of the strategy. -/
def update_stats (st : ProxyStats) : Nat → ProxyStats
  | 1 => { st with priority_1_success := st.priority_1_success + 1 }
  | 2 => { st with priority_2_success := st.priority_2_success + 1 }
  | 3 => { st with priority_3_success := st.priority_3_success + 1 }
  | 4 => { st with priority_4_success := st.priority_4_success + 1 }
  | _ => st

/-- The error object `process_request` returns when every strategy failed. -/
def all_failed_error : PyVal :=
  PyVal.dict [("error", PyVal.dict [
    ("message", PyVal.str "All tool calling strategies failed"),
    ("type", PyVal.str "InternalServerError"),
    ("code", PyVal.int 500)])]

/-- The `for strategy_name, strategy_func in strategies:` loop: first
success returns its result; failures and exceptions fall through. -/
def try_strategies (st : ProxyStats) : List (Nat × StratOutcome) → PyVal × ProxyStats
  | [] => (all_failed_error, st)
  | (i, StratOutcome.ok r) :: _ => (r, update_stats st i)
  | _ :: rest => try_strategies st rest

/-- `ToolCallProxy.process_request`.  The four strategies make network
calls, so their outcomes (`o1`–`o4`) and the no-tools passthrough result are
supplied by the environment; the strategy list and the exhaustion behaviour
are the source's.  `tools` models `request.tools` (`None` and `[]` are both
falsy, hence one list parameter). -/
def ToolCallProxy.process_request (tools : List PyVal) (passthrough : PyVal)
    (o1 o2 o3 o4 : StratOutcome) (st : ProxyStats) : PyVal × ProxyStats :=
  let st1 := { st with total_requests := st.total_requests + 1 }
  if tools.isEmpty then (passthrough, st1)
  else try_strategies st1 [(1, o1), (2, o2), (3, o3), (4, o4)]

/-! ### Concrete instances used by witnesses and counterexamples -/

/-- Stand-in for the abstracted `eval` arm of the calculator (never reached
by any statement below; see `calculator_execute`). -/
def evStub : PyVal → Except String PyVal := fun _ => Except.error "eval arm not modelled"

/-- Stand-in for the abstracted `operation`/`values` arm of the calculator
(never reached by any statement below). -/
def opStub : PyVal → PyVal → ToolResult := fun _ _ =>
  { status := ToolStatus.error, data := Option.none,
    error := some "operation arm not modelled", metadata := Option.none }

/-- The calculator instance at the stub arms. -/
def calcStub : Tool := CalculatorTool evStub opStub

/-- A registry holding just the calculator, as `register_default_tools` would
start building it. -/
def regCalc : ToolRegistry := ToolRegistry.init.register calcStub "math"

/-- A successful result payload. -/
def okRes : ToolResult :=
  { status := ToolStatus.success, data := some (PyVal.str "ok"),
    error := Option.none, metadata := Option.none }

/-- A `PARTIAL` result (both `data` and `error` populated). -/
def partRes : ToolResult :=
  { status := ToolStatus.part, data := some (PyVal.str "best effort"),
    error := some "incomplete", metadata := Option.none }

/-- A tool whose `execute` always returns `okRes`. -/
def okTool : Tool :=
  Tool.init "greeter" "always succeeds" 30 (PyVal.dict []) (fun _ => ExecOutcome.ok okRes)

/-- A tool whose `execute` always returns the `PARTIAL` result. -/
def partTool : Tool :=
  Tool.init "scraper" "returns a best-effort partial result" 30 (PyVal.dict [])
    (fun _ => ExecOutcome.ok partRes)

/-- A tool whose `execute` always raises (`str(e) = "division by zero"`). -/
def raisingTool : Tool :=
  Tool.init "boom" "always raises" 30 (PyVal.dict []) (fun _ => ExecOutcome.raises "division by zero")

/-- A registry holding the raising tool. -/
def regBoom : ToolRegistry := ToolRegistry.init.register raisingTool "general"

/-- The spec's timeout example: a tool configured with a 100 ms timeout
whose `execute` blocks past it, so `asyncio.wait_for` cancels it. -/
def blockingTool : Tool :=
  Tool.init "slow" "blocks past its 100ms timeout" (1/10) (PyVal.dict [])
    (fun _ => ExecOutcome.timesOut)

/-- First tool registered under the name `alpha` (for the re-registration
counterexample). -/
def tAlphaOld : Tool :=
  Tool.init "alpha" "first registration" 30 (PyVal.dict []) (fun _ => ExecOutcome.ok okRes)

/-- A distinct, freshly constructed tool object with the same name. -/
def tAlphaNew : Tool :=
  Tool.init "alpha" "second registration" 30 (PyVal.dict []) (fun _ => ExecOutcome.ok okRes)

/-- `alpha` registered and then dispatched five times, so its accumulated
`usage_count` is 5. -/
def regUsed : ToolRegistry :=
  runOps (ToolRegistry.init.register tAlphaOld "general")
    (List.replicate 5 (RegOp.executeOp "alpha" [] 0))

/-- An operation sequence exercising dispatch, a validation rejection, an
unknown-tool dispatch, a fault, a reset and an unregistration. -/
def opsC9 : List RegOp :=
  [RegOp.registerOp calcStub "math",
   RegOp.registerOp raisingTool "general",
   RegOp.executeOp "calculator" [("expression", PyVal.int 5)] 1,
   RegOp.executeOp "calculator" [] 2,
   RegOp.executeOp "missing" [] 3,
   RegOp.executeOp "boom" [] 4,
   RegOp.resetOp,
   RegOp.executeOp "boom" [] 5,
   RegOp.unregisterOp "calculator"]

/-- Zeroed proxy stats (`ToolCallProxy.__init__`). -/
def proxyStats0 : ProxyStats :=
  { total_requests := 0, priority_1_success := 0, priority_2_success := 0,
    priority_3_success := 0, priority_4_success := 0 }

/-- A failed strategy attempt as `_try_priority_1` returns one. -/
def failedHttp : StratOutcome :=
  StratOutcome.failed (PyVal.dict [("error", PyVal.str "HTTP 500: upstream unavailable")])

/-! ### Helper lemmas about the association-list dict model -/

theorem dictFind_cons {α : Type} (p : String × α) (rest : List (String × α)) (k : String) :
    dictFind (p :: rest) k = if p.1 == k then some p.2 else dictFind rest k := by
  cases hp : p.1 == k <;> simp [dictFind, List.find?, hp]

theorem mem_dictSet {α : Type} {m : List (String × α)} {k : String} {v : α}
    {q : String × α} (h : q ∈ dictSet m k v) : q ∈ m ∨ q = (k, v) := by
  induction m with
  | nil => simpa [dictSet] using h
  | cons p rest ih =>
    cases hp : p.1 == k
    · simp only [dictSet, hp, Bool.false_eq_true, if_false, List.mem_cons] at h
      rcases h with h | h
      · exact Or.inl (h ▸ List.mem_cons_self p rest)
      · rcases ih h with h1 | h1
        · exact Or.inl (List.mem_cons_of_mem p h1)
        · exact Or.inr h1
    · simp only [dictSet, hp, if_true, List.mem_cons] at h
      rcases h with h | h
      · exact Or.inr h
      · exact Or.inl (List.mem_cons_of_mem p h)

theorem dictFind_dictSet_self {α : Type} (m : List (String × α)) (k : String) (v : α) :
    dictFind (dictSet m k v) k = some v := by
  induction m with
  | nil => simp [dictSet, dictFind_cons]
  | cons p rest ih =>
    cases hp : p.1 == k
    · simpa [dictSet, hp, dictFind_cons] using ih
    · simp [dictSet, hp, dictFind_cons]

theorem dictFind_dictSet_ne {α : Type} (m : List (String × α)) (k : String) (v : α)
    (n : String) (h : n ≠ k) : dictFind (dictSet m k v) n = dictFind m n := by
  have hkn : (k == n) = false := by simp [Ne.symm h]
  induction m with
  | nil => simp [dictSet, dictFind_cons, hkn]
  | cons p rest ih =>
    cases hp : p.1 == k
    · simp [dictSet, hp, dictFind_cons, ih]
    · have hpk : p.1 = k := by simpa using hp
      simp [dictSet, hp, dictFind_cons, hkn, hpk]

theorem isSome_dictFind_dictSet {α : Type} (m : List (String × α)) (k : String) (v : α)
    (n : String) (h : (dictFind m n).isSome = true) :
    (dictFind (dictSet m k v) n).isSome = true := by
  by_cases hn : n = k
  · subst hn; rw [dictFind_dictSet_self]; rfl
  · rw [dictFind_dictSet_ne m k v n hn]; exact h

theorem length_dictSet_present {α : Type} (m : List (String × α)) (k : String) (v : α)
    (h : (dictFind m k).isSome = true) : (dictSet m k v).length = m.length := by
  induction m with
  | nil => simp [dictFind] at h
  | cons p rest ih =>
    cases hp : p.1 == k
    · have : (dictFind rest k).isSome = true := by
        simpa [dictFind_cons, hp] using h
      simp [dictSet, hp, ih this]
    · simp [dictSet, hp]

theorem dictFind_mem {α : Type} {m : List (String × α)} {k : String} {v : α}
    (h : dictFind m k = some v) : (k, v) ∈ m := by
  induction m with
  | nil => simp [dictFind] at h
  | cons p rest ih =>
    cases hp : p.1 == k
    · rw [dictFind_cons] at h
      simp only [hp, Bool.false_eq_true, if_false] at h
      exact List.mem_cons_of_mem p (ih h)
    · rw [dictFind_cons] at h
      simp only [hp, if_true, Option.some.injEq] at h
      have hpk : p.1 = k := by simpa using hp
      have : p = (k, v) := by
        cases p with
        | mk a b => simp_all
      exact this ▸ List.mem_cons_self p rest

theorem dictFind_dictDel_ne {α : Type} (m : List (String × α)) (k n : String)
    (h : n ≠ k) : dictFind (dictDel m k) n = dictFind m n := by
  induction m with
  | nil => rfl
  | cons p rest ih =>
    cases hp : p.1 == k
    · have hkeep : dictDel (p :: rest) k = p :: dictDel rest k := by
        simp [dictDel, List.filter_cons, hp, by simpa using hp]
      rw [hkeep, dictFind_cons, dictFind_cons, ih]
    · have hpk : p.1 = k := by simpa using hp
      have hpn : (p.1 == n) = false := by simp [hpk, Ne.symm h]
      have hdrop : dictDel (p :: rest) k = dictDel rest k := by
        simp [dictDel, List.filter_cons, hp, hpk]
      rw [hdrop, ih, dictFind_cons]
      simp [hpn]

theorem isSome_dictFind_mapVal {α : Type} (m : List (String × α)) (f : String × α → α)
    (n : String) :
    (dictFind (m.map (fun p => (p.1, f p))) n).isSome = (dictFind m n).isSome := by
  induction m with
  | nil => rfl
  | cons p rest ih =>
    cases hp : p.1 == n
    · simpa [dictFind_cons, hp] using ih
    · simp [dictFind_cons, hp]

theorem mem_removeFirst {l : List String} {nm n : String}
    (h : n ∈ removeFirst l nm) : n ∈ l := by
  induction l with
  | nil => simp [removeFirst] at h
  | cons x xs ih =>
    cases hx : x == nm
    · simp only [removeFirst, hx, Bool.false_eq_true, if_false, List.mem_cons] at h
      rcases h with h | h
      · exact h ▸ List.mem_cons_self x xs
      · exact List.mem_cons_of_mem x (ih h)
    · simp only [removeFirst, hx, if_true] at h
      exact List.mem_cons_of_mem x h

theorem not_mem_removeFirst_of_nodup {l : List String} {nm : String}
    (hl : l.Nodup) : nm ∉ removeFirst l nm := by
  induction l with
  | nil => simp [removeFirst]
  | cons x xs ih =>
    rcases List.nodup_cons.mp hl with ⟨hx, hxs⟩
    cases hxe : x == nm
    · have hne : x ≠ nm := by simpa using hxe
      simp only [removeFirst, hxe, Bool.false_eq_true, if_false, List.mem_cons, not_or]
      exact ⟨fun hh => hne hh.symm, ih hxs⟩
    · have : x = nm := by simpa using hxe
      subst this
      simpa [removeFirst] using hx

theorem nodup_removeFirst {l : List String} {nm : String}
    (hl : l.Nodup) : (removeFirst l nm).Nodup := by
  induction l with
  | nil => simp [removeFirst]
  | cons x xs ih =>
    rcases List.nodup_cons.mp hl with ⟨hx, hxs⟩
    cases hxe : x == nm
    · simp only [removeFirst, hxe, Bool.false_eq_true, if_false]
      exact List.nodup_cons.mpr ⟨fun hmem => hx (mem_removeFirst hmem), ih hxs⟩
    · simpa [removeFirst, hxe] using hxs

/-! ### Validation messages are never the empty string
(relevant because `if validation_error:` in `execute_tool` is a Python
truthiness test, which would treat `""` as "no error") -/

theorem prefix_append_isEmpty (a b : String) (ha : a.isEmpty = false) :
    (a ++ b).isEmpty = false := by
  cases hab : (a ++ b).isEmpty
  · rfl
  · have h1 : a ++ b = "" := (String.isEmpty_iff _).mp hab
    have h2 : a = "" := by
      have hd : a.data ++ b.data = [] := by
        have := congrArg String.data h1
        simpa [String.data_append] using this
      have : a.data = [] := (List.append_eq_nil.mp hd).1
      cases a
      simp_all
    rw [h2] at ha
    exact absurd ha (by decide)

theorem checkRequired_isEmpty_false {reqs : List PyVal} {params : Params} {msg : String}
    (h : checkRequired reqs params = some msg) : msg.isEmpty = false := by
  induction reqs with
  | nil => simp [checkRequired] at h
  | cons req rest ih =>
    cases hin : params.any (fun kv => pyEqStr req kv.1)
    · simp only [checkRequired, hin, Bool.false_eq_true, if_false, Option.some.injEq] at h
      subst h
      exact prefix_append_isEmpty _ _ (by decide)
    · simp only [checkRequired, hin, if_true] at h
      exact ih h

theorem checkTypes_isEmpty_false {props : PyVal} {params : Params} {msg : String}
    (h : checkTypes props params = some msg) : msg.isEmpty = false := by
  induction params with
  | nil => simp [checkTypes] at h
  | cons kv rest ih =>
    obtain ⟨key, value⟩ := kv
    cases hfind : pyGetOpt props key with
    | none =>
      simp only [checkTypes, hfind] at h
      exact ih h
    | some prop =>
      simp only [checkTypes, hfind] at h
      repeat' split at h
      all_goals
        first
          | exact ih h
          | (simp only [Option.some.injEq] at h
             subst h
             exact prefix_append_isEmpty _ _ (prefix_append_isEmpty _ _ (by decide)))

theorem validate_params_isEmpty_false (t : Tool) (params : Params) (msg : String)
    (h : t.validate_params params = some msg) : msg.isEmpty = false := by
  simp only [Tool.validate_params] at h
  cases hr : checkRequired (pyListElems (pyGet (pyGet (pyGet t.schema "function"
      (PyVal.dict [])) "parameters" (PyVal.dict [])) "required" (PyVal.list []))) params with
  | some m =>
    rw [hr] at h
    simp only [Option.some.injEq] at h
    subst h
    exact checkRequired_isEmpty_false hr
  | none =>
    rw [hr] at h
    exact checkTypes_isEmpty_false h

/-! ### Counter bookkeeping of `safe_execute` -/

theorem safe_execute_counts (t : Tool) (params : Params) (now : Nat) :
    (t.safe_execute params now).2.success_count + (t.safe_execute params now).2.error_count
      = t.success_count + t.error_count + 1 ∧
    (t.safe_execute params now).2.usage_count = t.usage_count + 1 := by
  unfold Tool.safe_execute
  cases t.execute params with
  | ok r => by_cases hr : r.status = ToolStatus.success <;> simp [hr] <;> omega
  | raises msg => simp; omega
  | timesOut => simp; omega

/-! ### The claims -/

/-- C1: for every registered tool and every parameter map, if
`validate_params` fails then `execute_tool` returns an `Error` result
carrying the reason, the tool's `execute` is never invoked, and the registry
(hence the tool's `usage_count`, `success_count`, `error_count` and
`last_used`) is unchanged. -/
theorem C1_validation_failure_is_resolved_locally
    (reg : ToolRegistry) (name : String) (tool : Tool) (params : Params) (now : Nat)
    (msg : String) (hlook : reg.get_tool name = some tool)
    (hval : tool.validate_params params = some msg) :
    reg.execute_tool name params now =
      { result := { status := ToolStatus.error, data := Option.none,
                    error := some msg, metadata := Option.none },
        reg := reg, invoked := false } := by
  have hne : msg.isEmpty = false := validate_params_isEmpty_false tool params msg hval
  unfold ToolRegistry.execute_tool
  rw [hlook]
  simp only [hval, hne, Bool.false_eq_true, if_false]

/-- Witness for C1: the calculator rejects a non-string `expression`
(`{"expression": 5}`); the registry result is the validation `Error`, the
tool is not invoked, and the registry is unchanged. -/
theorem C1_witness :
    regCalc.get_tool "calculator" = some calcStub ∧
    calcStub.validate_params [("expression", PyVal.int 5)]
      = some "Parameter expression must be a string" ∧
    regCalc.execute_tool "calculator" [("expression", PyVal.int 5)] 0 =
      { result := { status := ToolStatus.error, data := Option.none,
                    error := some "Parameter expression must be a string",
                    metadata := Option.none },
        reg := regCalc, invoked := false } :=
  ⟨rfl, rfl,
   C1_validation_failure_is_resolved_locally regCalc "calculator" calcStub
     [("expression", PyVal.int 5)] 0 "Parameter expression must be a string" rfl rfl⟩

/-- C2: an exception raised inside a tool's `execute` is caught by
`safe_execute` and converted into a returned `ToolResult` with `Error`
status and the fault's message as the error text; dispatch through the
registry therefore returns that result instead of propagating the fault
(the embedding of `execute_tool` is a total function into `DispatchOut` —
there is no exception channel left open to the caller). -/
theorem C2_registry_converts_tool_exceptions
    (reg : ToolRegistry) (name : String) (tool : Tool) (params : Params) (now : Nat)
    (msg : String) (hlook : reg.get_tool name = some tool)
    (hval : tool.validate_params params = Option.none)
    (hexec : tool.execute params = ExecOutcome.raises msg) :
    (reg.execute_tool name params now).result =
      { status := ToolStatus.error, data := Option.none, error := some msg,
        metadata := Option.none } := by
  unfold ToolRegistry.execute_tool
  rw [hlook]
  simp only [hval, Tool.safe_execute, hexec]

/-- Witness for C2: a tool that always raises `division by zero`; the
registry returns the converted `Error` result. -/
theorem C2_witness :
    raisingTool.execute [] = ExecOutcome.raises "division by zero" ∧
    (regBoom.execute_tool "boom" [] 0).result =
      { status := ToolStatus.error, data := Option.none,
        error := some "division by zero", metadata := Option.none } :=
  ⟨rfl,
   C2_registry_converts_tool_exceptions regBoom "boom" raisingTool [] 0
     "division by zero" rfl rfl rfl⟩

/-- C5 (amended): on normal completion `safe_execute` returns the tool's
result unchanged, but it increments `success_count` only for `SUCCESS`;
`PARTIAL` (like `ERROR` and a returned `TIMEOUT` status) increments
`error_count` — the source tests `result.status == ToolStatus.SUCCESS` and
sends every other status to the `else` branch. -/
theorem C5_normal_completion_counters
    (t : Tool) (params : Params) (now : Nat) (r : ToolResult)
    (h : t.execute params = ExecOutcome.ok r) :
    (t.safe_execute params now).1 = r ∧
    (t.safe_execute params now).2.success_count =
      (if r.status = ToolStatus.success then t.success_count + 1 else t.success_count) ∧
    (t.safe_execute params now).2.error_count =
      (if r.status = ToolStatus.success then t.error_count else t.error_count + 1) := by
  unfold Tool.safe_execute
  rw [h]
  by_cases hr : r.status = ToolStatus.success <;> simp [hr]

/-- Counterexample for C5 as stated: a tool returning a `PARTIAL` result —
the claim says `success_count` is incremented for Success or Partial, but
the fresh tool's `success_count` stays 0 and `error_count` becomes 1. -/
theorem C5_counterexample :
    partTool.execute [] = ExecOutcome.ok partRes ∧
    partRes.status = ToolStatus.part ∧
    (partTool.safe_execute [] 0).1 = partRes ∧
    (partTool.safe_execute [] 0).2.success_count = 0 ∧
    (partTool.safe_execute [] 0).2.error_count = 1 :=
  ⟨rfl, rfl, rfl, rfl, rfl⟩

/-- Witness for C5: a successfully completing tool. -/
theorem C5_witness :
    okTool.execute [] = ExecOutcome.ok okRes ∧
    ((okTool.safe_execute [] 0).1 = okRes ∧
     (okTool.safe_execute [] 0).2.success_count =
       (if okRes.status = ToolStatus.success then okTool.success_count + 1
        else okTool.success_count) ∧
     (okTool.safe_execute [] 0).2.error_count =
       (if okRes.status = ToolStatus.success then okTool.error_count
        else okTool.error_count + 1)) :=
  ⟨rfl, C5_normal_completion_counters okTool [] 0 okRes rfl⟩

/-- C6: when `execute` exceeds the tool's configured timeout
(`asyncio.wait_for` raises `TimeoutError`, i.e. outcome `timesOut`),
`safe_execute` returns a `TIMEOUT`-status result naming the configured
bound, increments `error_count`, and does not increment `success_count`.
The claim's real-time aspect ("after ~the bound, not the tool's full
blocking time") is exactly the `wait_for` semantics this outcome embeds:
the wrapper returns at the bound. -/
theorem C6_timeout_result_and_counters (t : Tool) (params : Params) (now : Nat)
    (h : t.execute params = ExecOutcome.timesOut) :
    (t.safe_execute params now).1.status = ToolStatus.timeout ∧
    (t.safe_execute params now).1.error =
      some ("Tool execution timed out after " ++ toString t.timeout ++ " seconds") ∧
    (t.safe_execute params now).2.error_count = t.error_count + 1 ∧
    (t.safe_execute params now).2.success_count = t.success_count ∧
    (t.safe_execute params now).2.usage_count = t.usage_count + 1 := by
  unfold Tool.safe_execute
  rw [h]
  simp

/-- Witness for C6: the 100ms-timeout blocking tool of the spec's example. -/
theorem C6_witness :
    blockingTool.execute [] = ExecOutcome.timesOut ∧
    ((blockingTool.safe_execute [] 0).1.status = ToolStatus.timeout ∧
     (blockingTool.safe_execute [] 0).1.error =
       some ("Tool execution timed out after " ++ toString blockingTool.timeout ++ " seconds") ∧
     (blockingTool.safe_execute [] 0).2.error_count = blockingTool.error_count + 1 ∧
     (blockingTool.safe_execute [] 0).2.success_count = blockingTool.success_count ∧
     (blockingTool.safe_execute [] 0).2.usage_count = blockingTool.usage_count + 1) :=
  ⟨rfl, C6_timeout_result_and_counters blockingTool [] 0 rfl⟩

/-- If no attempt in a strategy list is a success, the loop falls through to
the `All tool calling strategies failed` error object. -/
theorem try_strategies_all_not_ok (st : ProxyStats) (l : List (Nat × StratOutcome))
    (h : ∀ p ∈ l, p.2.isOk = false) : (try_strategies st l).1 = all_failed_error := by
  induction l with
  | nil => rfl
  | cons p rest ih =>
    obtain ⟨i, o⟩ := p
    cases o with
    | ok r =>
      have := h (i, StratOutcome.ok r) (List.mem_cons_self _ _)
      simp [StratOutcome.isOk] at this
    | failed r => exact ih (fun q hq => h q (List.mem_cons_of_mem _ hq))
    | raised m => exact ih (fun q hq => h q (List.mem_cons_of_mem _ hq))

/-- C3 (amended): when a request carries a non-empty tools list and every
strategy in the chain fails (returns `success = False` or raises),
`process_request` returns the error envelope
`{"error": {"message": "All tool calling strategies failed",
"type": "InternalServerError", "code": 500}}` to the caller — not a no-tool
outcome.  (The "no tool needed" case is instead a *success* of strategy 3
or 4, whose routing step decided against a tool and returned a normal
completion.) -/
theorem C3_exhausted_strategies_return_error
    (tools : List PyVal) (pass : PyVal) (o1 o2 o3 o4 : StratOutcome) (st : ProxyStats)
    (htools : tools.isEmpty = false)
    (h1 : o1.isOk = false) (h2 : o2.isOk = false) (h3 : o3.isOk = false)
    (h4 : o4.isOk = false) :
    (ToolCallProxy.process_request tools pass o1 o2 o3 o4 st).1 = all_failed_error := by
  unfold ToolCallProxy.process_request
  simp only [htools, Bool.false_eq_true, if_false]
  refine try_strategies_all_not_ok _ _ ?_
  intro p hp
  simp only [List.mem_cons, List.not_mem_nil, or_false] at hp
  rcases hp with rfl | rfl | rfl | rfl <;> assumption

/-- Counterexample for C3 as stated: with tools offered and all four
strategies failing, the result is the error object (it has a top-level
`"error"` key with `code` 500), not a `shouldInvoke = false` / normal
non-tool response. -/
theorem C3_counterexample :
    (ToolCallProxy.process_request [PyVal.str "calculator-schema"] PyVal.none
        failedHttp failedHttp failedHttp failedHttp proxyStats0).1 = all_failed_error ∧
    (pyGetOpt all_failed_error "error").isSome = true ∧
    pyGet (pyGet all_failed_error "error" PyVal.none) "code" PyVal.none = PyVal.int 500 :=
  ⟨rfl, rfl, rfl⟩

/-- Witness for C3 (amended): a concrete exhausted run — three failures and
one swallowed exception. -/
theorem C3_witness :
    ([PyVal.str "calculator-schema"] : List PyVal).isEmpty = false ∧
    failedHttp.isOk = false ∧
    (StratOutcome.raised "connection refused").isOk = false ∧
    (ToolCallProxy.process_request [PyVal.str "calculator-schema"] PyVal.none
        failedHttp failedHttp (StratOutcome.raised "connection refused") failedHttp
        proxyStats0).1 = all_failed_error :=
  ⟨rfl, rfl, rfl,
   C3_exhausted_strategies_return_error [PyVal.str "calculator-schema"] PyVal.none
     failedHttp failedHttp (StratOutcome.raised "connection refused") failedHttp
     proxyStats0 rfl rfl rfl rfl rfl⟩

/-- C4 (amended): `executeTool("calculator", {})` is *not* a validation
rejection, because `CalculatorTool.get_schema` declares `"required": []`.
Validation passes, the calculator's `execute` *is* entered, and the `Error`
it returns comes from `execute`'s final `else` branch
(`Provide either 'expression' or both 'operation' and 'values'`), with
`usage_count` and `error_count` both incremented — for every abstraction of
the two arithmetic arms and every clock value. -/
theorem C4_empty_params_enter_execute
    (ev : PyVal → Except String PyVal) (opEval : PyVal → PyVal → ToolResult) (now : Nat) :
    (CalculatorTool ev opEval).validate_params [] = Option.none ∧
    ((ToolRegistry.init.register (CalculatorTool ev opEval) "math").execute_tool
        "calculator" [] now).invoked = true ∧
    ((ToolRegistry.init.register (CalculatorTool ev opEval) "math").execute_tool
        "calculator" [] now).result =
      { status := ToolStatus.error, data := Option.none,
        error := some "Provide either \x27expression\x27 or both \x27operation\x27 and \x27values\x27",
        metadata := Option.none } ∧
    (((ToolRegistry.init.register (CalculatorTool ev opEval) "math").execute_tool
        "calculator" [] now).reg.get_tool "calculator").map Tool.usage_count = some 1 ∧
    (((ToolRegistry.init.register (CalculatorTool ev opEval) "math").execute_tool
        "calculator" [] now).reg.get_tool "calculator").map Tool.error_count = some 1 :=
  ⟨rfl, rfl, rfl, rfl, rfl⟩

/-- Counterexample for C4 as stated: on the empty parameter map the
calculator's validation succeeds (`required` is empty, so nothing is
missing) and its internal `execute` logic *is* entered, returning
`execute`'s own `Error` — not a `Missing required parameter` rejection. -/
theorem C4_counterexample :
    calcStub.validate_params [] = Option.none ∧
    (regCalc.execute_tool "calculator" [] 0).invoked = true ∧
    (regCalc.execute_tool "calculator" [] 0).result.error =
      some "Provide either \x27expression\x27 or both \x27operation\x27 and \x27values\x27" :=
  ⟨rfl, rfl, rfl⟩

/-- C7: evaluating the deterministic matchers at the claim's input.  The
first calc pattern `(\d+)\s*[×*곱하기]\s*(\d+)` uses a character *class*,
which matches exactly one of the five characters `×ㆍ*ㆍ곱ㆍ하ㆍ기` — never the
three-character word `곱하기`.  So `"25 곱하기 4"` matches no pattern and
both routers detect *no* tool, while the claim (and the comment on the
pattern, and the repository's own calculator test) expect `calculator` with
`"25 * 4"`.  The single characters `×` and `곱` do match, which shows the
class was meant as an alternation. -/
theorem C7_gobhagi_matches_no_pattern :
    SimpleToolEmulator.detect_tool_intent "25 곱하기 4" = (Option.none, []) ∧
    ToolCallProxy.fallback_pattern_detection "25 곱하기 4" ["calculator"]
      = (false, "", []) ∧
    SimpleToolEmulator.detect_tool_intent "25 × 4"
      = (some "calculator", [("expression", PyVal.str "25 * 4")]) ∧
    SimpleToolEmulator.detect_tool_intent "25 곱 4"
      = (some "calculator", [("expression", PyVal.str "25 * 4")]) :=
  ⟨rfl, rfl, rfl, rfl⟩

/-- C8 (amended): re-registering an existing name overwrites the entry in
place — the tool is retrievable under the name, `list_tools()` keeps its
length, every other name is untouched, and `register` itself modifies no
counters; but the stats reported for the name are those carried by the
*newly registered tool object* (the catalogued entry becomes exactly `t`),
so a fresh replacement object makes the name's stats read as zero. -/
theorem C8_reregistration (reg : ToolRegistry) (t : Tool) (cat : String)
    (h : (dictFind reg.tools t.name).isSome = true) :
    (reg.register t cat).get_tool t.name = some t ∧
    ((reg.register t cat).list_tools Option.none).length
      = (reg.list_tools Option.none).length ∧
    ∀ n, n ≠ t.name → (reg.register t cat).get_tool n = reg.get_tool n := by
  refine ⟨?_, ?_, ?_⟩
  · show dictFind (dictSet reg.tools t.name t) t.name = some t
    exact dictFind_dictSet_self _ _ _
  · show (dictKeys (dictSet reg.tools t.name t)).length = (dictKeys reg.tools).length
    simp [dictKeys, length_dictSet_present reg.tools t.name t h]
  · intro n hn
    show dictFind (dictSet reg.tools t.name t) n = dictFind reg.tools n
    exact dictFind_dictSet_ne _ _ _ _ hn

/-- Counterexample for C8 as stated: `alpha` accumulated
`usage_count = success_count = 5`; re-registering a fresh object with the
same name makes the registry report 0 for both — the previously accumulated
stats for that name *are* effectively reset (they lived on the replaced
object), though `list_tools()` still has length 1. -/
theorem C8_counterexample :
    (regUsed.get_tool "alpha").map Tool.usage_count = some 5 ∧
    (regUsed.get_tool "alpha").map Tool.success_count = some 5 ∧
    ((regUsed.register tAlphaNew "general").get_tool "alpha").map Tool.usage_count
      = some 0 ∧
    ((regUsed.register tAlphaNew "general").get_tool "alpha").map Tool.success_count
      = some 0 ∧
    ((regUsed.register tAlphaNew "general").list_tools Option.none).length = 1 :=
  ⟨rfl, rfl, rfl, rfl, rfl⟩

/-- Witness for C8 (amended), at the used registry and the fresh
replacement object. -/
theorem C8_witness :
    (dictFind regUsed.tools tAlphaNew.name).isSome = true ∧
    ((regUsed.register tAlphaNew "general").get_tool tAlphaNew.name = some tAlphaNew ∧
     ((regUsed.register tAlphaNew "general").list_tools Option.none).length
       = (regUsed.list_tools Option.none).length ∧
     ∀ n, n ≠ tAlphaNew.name →
       (regUsed.register tAlphaNew "general").get_tool n = regUsed.get_tool n) :=
  ⟨rfl, C8_reregistration regUsed tAlphaNew "general" rfl⟩

/-! ### The stats invariant (C9) -/

theorem statsInv_iff (reg : ToolRegistry) :
    statsInv reg = true ↔
      ∀ p ∈ reg.tools, p.2.success_count + p.2.error_count ≤ p.2.usage_count := by
  simp [statsInv, List.all_eq_true, Nat.ble_eq]

/-- The registry after `execute_tool` either kept its catalog or replaced
the dispatched entry by the tool `safe_execute` returned. -/
theorem execute_tool_reg_tools (reg : ToolRegistry) (n : String) (params : Params)
    (now : Nat) :
    (reg.execute_tool n params now).reg.tools = reg.tools ∨
    ∃ tool, reg.get_tool n = some tool ∧
      (reg.execute_tool n params now).reg.tools
        = dictSet reg.tools n (tool.safe_execute params now).2 := by
  unfold ToolRegistry.execute_tool
  cases hlook : reg.get_tool n with
  | none => exact Or.inl rfl
  | some tool =>
    cases hval : tool.validate_params params with
    | some msg =>
      by_cases hise : msg.isEmpty
      · exact Or.inr ⟨tool, rfl, by simp [hval, hise]⟩
      · exact Or.inl (by simp [hval, hise])
    | none => exact Or.inr ⟨tool, rfl, by simp [hval]⟩

theorem statsInv_app (reg : ToolRegistry) (op : RegOp)
    (hwf : op.wf = true) (hinv : statsInv reg = true) : statsInv (op.app reg) = true := by
  rw [statsInv_iff] at hinv ⊢
  cases op with
  | registerOp t c =>
    intro p hp
    rcases mem_dictSet (show p ∈ dictSet reg.tools t.name t from hp) with h | h
    · exact hinv p h
    · subst h
      simpa [RegOp.wf, Nat.ble_eq] using hwf
  | unregisterOp n =>
    intro p hp
    by_cases hex : (dictFind reg.tools n).isSome = true
    · have hpd : p ∈ dictDel reg.tools n := by
        simpa [RegOp.app, ToolRegistry.unregister, hex] using hp
      exact hinv p (List.mem_of_mem_filter hpd)
    · have hpr : p ∈ reg.tools := by
        simpa [RegOp.app, ToolRegistry.unregister, hex] using hp
      exact hinv p hpr
  | executeOp n params now =>
    intro p hp
    rcases execute_tool_reg_tools reg n params now with heq | ⟨tool, hlook, heq⟩
    · rw [show (RegOp.app (RegOp.executeOp n params now) reg).tools
          = (reg.execute_tool n params now).reg.tools from rfl, heq] at hp
      exact hinv p hp
    · rw [show (RegOp.app (RegOp.executeOp n params now) reg).tools
          = (reg.execute_tool n params now).reg.tools from rfl, heq] at hp
      rcases mem_dictSet hp with h | h
      · exact hinv p h
      · subst h
        have hc := safe_execute_counts tool params now
        have htool : tool.success_count + tool.error_count ≤ tool.usage_count :=
          hinv (n, tool) (dictFind_mem hlook)
        dsimp only
        omega
  | resetOp =>
    intro p hp
    rcases List.mem_map.mp hp with ⟨q, _, rfl⟩
    simp

/-- C9: the invariant `success_count + error_count ≤ usage_count` holds for
every catalogued tool after any sequence of registry operations (dispatches
— successful, rejected, timed out or faulting —, resets, unregistrations,
and registrations of tools that themselves satisfy the bound, as every
`Tool.init`-constructed tool does). -/
theorem C9_stats_counter_invariant (reg : ToolRegistry) (ops : List RegOp)
    (hops : ∀ op ∈ ops, op.wf = true) (hreg : statsInv reg = true) :
    statsInv (runOps reg ops) = true := by
  induction ops generalizing reg with
  | nil => exact hreg
  | cons op rest ih =>
    exact ih (op.app reg) (fun o ho => hops o (List.mem_cons_of_mem _ ho))
      (statsInv_app reg op (hops op (List.mem_cons_self _ _)) hreg)

/-- Witness for C9: a concrete operation sequence with a validation
rejection, an error-returning dispatch, an unknown-tool dispatch, faulting
dispatches around a reset, and an unregistration. -/
theorem C9_witness :
    (∀ op ∈ opsC9, RegOp.wf op = true) ∧ statsInv ToolRegistry.init = true ∧
    statsInv (runOps ToolRegistry.init opsC9) = true := by
  have hwf : ∀ op ∈ opsC9, RegOp.wf op = true := by
    intro op hop
    simp only [opsC9, List.mem_cons, List.not_mem_nil, or_false] at hop
    rcases hop with rfl | rfl | rfl | rfl | rfl | rfl | rfl | rfl | rfl <;> rfl
  exact ⟨hwf, rfl, C9_stats_counter_invariant ToolRegistry.init opsC9 hwf rfl⟩

/-! ### The category-index invariant (C10) -/

theorem catInv_iff (reg : ToolRegistry) :
    catInv reg = true ↔
      ∀ c ∈ reg.categories, ∀ n ∈ c.2, (dictFind reg.tools n).isSome = true := by
  simp [catInv, List.all_eq_true]

/-- Auxiliary invariant: no category list ever holds a name twice (register
guards the append with `if tool.name not in self._categories[category]`). -/
def catNodup (reg : ToolRegistry) : Prop := ∀ c ∈ reg.categories, c.2.Nodup

theorem cat_step (reg : ToolRegistry) (op : RegOp)
    (hinv : catInv reg = true) (hnd : catNodup reg) :
    catInv (op.app reg) = true ∧ catNodup (op.app reg) := by
  rw [catInv_iff] at hinv ⊢
  cases op with
  | registerOp t c =>
    constructor
    · intro q hq m hm
      have hq' : q ∈ (reg.register t c).categories := hq
      have htools : (reg.register t c).tools = dictSet reg.tools t.name t := rfl
      rw [show (RegOp.app (RegOp.registerOp t c) reg).tools
          = dictSet reg.tools t.name t from rfl]
      -- q is an old pair, or the updated pair for category c
      unfold ToolRegistry.register at hq'
      cases hfind : dictFind reg.categories c with
      | none =>
        rw [hfind] at hq'
        dsimp only at hq'
        rcases mem_dictSet (show q ∈ dictSet reg.categories c [t.name] from hq') with h | h
        · exact isSome_dictFind_dictSet _ _ _ _ (hinv q h m hm)
        · subst h
          have : m = t.name := by simpa using hm
          subst this
          rw [dictFind_dictSet_self]
          rfl
      | some names =>
        rw [hfind] at hq'
        dsimp only at hq'
        by_cases hcont : names.contains t.name
        · rw [if_pos hcont] at hq'
          exact isSome_dictFind_dictSet _ _ _ _ (hinv q hq' m hm)
        · rw [if_neg hcont] at hq'
          rcases mem_dictSet
              (show q ∈ dictSet reg.categories c (names ++ [t.name]) from hq') with h | h
          · exact isSome_dictFind_dictSet _ _ _ _ (hinv q h m hm)
          · subst h
            simp only [List.mem_append, List.mem_singleton] at hm
            rcases hm with hm | hm
            · exact isSome_dictFind_dictSet _ _ _ _
                (hinv (c, names) (dictFind_mem hfind) m hm)
            · subst hm
              rw [dictFind_dictSet_self]
              rfl
    · intro q hq
      have hq' : q ∈ (reg.register t c).categories := hq
      unfold ToolRegistry.register at hq'
      cases hfind : dictFind reg.categories c with
      | none =>
        rw [hfind] at hq'
        dsimp only at hq'
        rcases mem_dictSet (show q ∈ dictSet reg.categories c [t.name] from hq') with h | h
        · exact hnd q h
        · subst h; simp
      | some names =>
        rw [hfind] at hq'
        dsimp only at hq'
        by_cases hcont : names.contains t.name
        · rw [if_pos hcont] at hq'
          exact hnd q hq'
        · rw [if_neg hcont] at hq'
          rcases mem_dictSet
              (show q ∈ dictSet reg.categories c (names ++ [t.name]) from hq') with h | h
          · exact hnd q h
          · subst h
            have hnm : t.name ∉ names := by
              intro hmem
              exact hcont (by simpa using hmem)
            have : names.Nodup := hnd (c, names) (dictFind_mem hfind)
            simp [List.nodup_append, this, hnm]
  | unregisterOp n =>
    by_cases hex : (dictFind reg.tools n).isSome = true
    · constructor
      · intro q hq m hm
        have hq' : q ∈ reg.categories.map (fun c =>
            if c.2.contains n then (c.1, removeFirst c.2 n) else c) := by
          simpa [RegOp.app, ToolRegistry.unregister, hex] using hq
        rcases List.mem_map.mp hq' with ⟨c, hc, rfl⟩
        have htools : (RegOp.app (RegOp.unregisterOp n) reg).tools = dictDel reg.tools n := by
          simp [RegOp.app, ToolRegistry.unregister, hex]
        rw [htools]
        by_cases hcont : c.2.contains n
        · rw [if_pos hcont] at hm
          simp only at hm
          have hmc : m ∈ c.2 := mem_removeFirst hm
          have hmn : m ≠ n := by
            intro hEq
            subst hEq
            exact not_mem_removeFirst_of_nodup (hnd c hc) hm
          rw [dictFind_dictDel_ne _ _ _ hmn]
          exact hinv c hc m hmc
        · rw [if_neg hcont] at hm
          have hmn : m ≠ n := by
            intro hEq
            subst hEq
            exact hcont (by simpa using hm)
          rw [dictFind_dictDel_ne _ _ _ hmn]
          exact hinv c hc m hm
      · intro q hq
        have hq' : q ∈ reg.categories.map (fun c =>
            if c.2.contains n then (c.1, removeFirst c.2 n) else c) := by
          simpa [RegOp.app, ToolRegistry.unregister, hex] using hq
        rcases List.mem_map.mp hq' with ⟨c, hc, rfl⟩
        by_cases hcont : c.2.contains n
        · rw [if_pos hcont]
          exact nodup_removeFirst (hnd c hc)
        · rw [if_neg hcont]
          exact hnd c hc
    · constructor
      · intro q hq m hm
        have hq' : q ∈ reg.categories := by
          simpa [RegOp.app, ToolRegistry.unregister, hex] using hq
        have : (RegOp.app (RegOp.unregisterOp n) reg).tools = reg.tools := by
          simp [RegOp.app, ToolRegistry.unregister, hex]
        rw [this]
        exact hinv q hq' m hm
      · intro q hq
        have hq' : q ∈ reg.categories := by
          simpa [RegOp.app, ToolRegistry.unregister, hex] using hq
        exact hnd q hq'
  | executeOp n params now =>
    have hcats : (RegOp.app (RegOp.executeOp n params now) reg).categories
        = reg.categories := by
      show (reg.execute_tool n params now).reg.categories = reg.categories
      unfold ToolRegistry.execute_tool
      cases hlook : reg.get_tool n with
      | none => rfl
      | some tool =>
        dsimp only
        cases hval : tool.validate_params params with
        | some msg => by_cases hise : msg.isEmpty <;> simp [hval, hise]
        | none => rfl
    constructor
    · intro q hq m hm
      rw [hcats] at hq
      rcases execute_tool_reg_tools reg n params now with heq | ⟨tool, _, heq⟩
      · rw [show (RegOp.app (RegOp.executeOp n params now) reg).tools
            = (reg.execute_tool n params now).reg.tools from rfl, heq]
        exact hinv q hq m hm
      · rw [show (RegOp.app (RegOp.executeOp n params now) reg).tools
            = (reg.execute_tool n params now).reg.tools from rfl, heq]
        exact isSome_dictFind_dictSet _ _ _ _ (hinv q hq m hm)
    · intro q hq
      rw [hcats] at hq
      exact hnd q hq
  | resetOp =>
    constructor
    · intro q hq m hm
      have hq' : q ∈ reg.categories := hq
      rw [show (RegOp.app RegOp.resetOp reg).tools
          = reg.tools.map (fun p => (p.1, { p.2 with
              usage_count := 0, success_count := 0, error_count := 0,
              last_used := Option.none })) from rfl]
      rw [isSome_dictFind_mapVal]
      exact hinv q hq' m hm
    · intro q hq
      exact hnd q hq

/-- C10: starting from a fresh registry, after any sequence of operations
(register, unregister — and dispatches and resets, which do not touch the
index) every tool name appearing in any category list of `_categories` is a
key of `_tools`. -/
theorem C10_category_index_consistent (ops : List RegOp) :
    catInv (runOps ToolRegistry.init ops) = true := by
  suffices h : ∀ (l : List RegOp) (reg : ToolRegistry),
      catInv reg = true → catNodup reg →
      catInv (runOps reg l) = true ∧ catNodup (runOps reg l) by
    exact (h ops ToolRegistry.init rfl (by intro c hc; simp [ToolRegistry.init] at hc)).1
  intro l
  induction l with
  | nil => exact fun reg h1 h2 => ⟨h1, h2⟩
  | cons op rest ih =>
    intro reg h1 h2
    rcases cat_step reg op h1 h2 with ⟨h1', h2'⟩
    exact ih _ h1' h2'

end GptOss
